import Mathlib

/-!
# Verification of the sfmlfireworks demos against their specification

Shallow embedding, over the rationals, of the two demo programs present in
the repository sources:

* `src/main.cpp` — the 2D voxel-destruction shooter (`Game`);
* `src/combined.frag` (second half) — the fireworks simulation
  (`Particle`, `Firework`, `main`).

Floating-point arithmetic of the source is modelled by exact rational
arithmetic.  Each comparison of `std::sqrt(s)` against a non-negative
threshold `r` in the source is translated to the equivalent comparison of
`s` against `r * r` (for real sqrt and `0 ≤ r`, `sqrt s ≤ r ↔ s ≤ r * r`,
and `sqrt s = 0 ↔ s = 0` for `0 ≤ s`); where only the sign / zero test of a
square root matters we use the executable stand-in `sqrtQ` below, which
agrees with real sqrt on exactly those tests.

The C library pieces that are external to the sources — the `rand()`
pseudo-random stream and the transcendental functions `cos`, `sin` and the
constant `M_PI` used only to shape particle velocities — are modelled as
unconstrained parameters bundled in `Env`; no theorem below depends on
their values, and the `rand()` cursor is threaded explicitly as program
state.

The rope / constraint-physics core described by spec §3–§4 has no source
file under `src/`; the definitions for it are modelled from the spec text
and are marked as such in their doc comments.
-/

/-- A 2D vector (`sf::Vector2f`), modelled with exact rational coordinates. -/
abbrev Vec2 := ℚ × ℚ

/-- Executable rational stand-in for `std::sqrt`.  It is exact on sign
tests, which is all the guards in the source depend on: `sqrtQ q = 0 ↔ q ≤ 0`
and `0 < sqrtQ q ↔ 0 < q`.  (Its magnitude is only an integer-precision
approximation; no theorem below uses the magnitude.) -/
def sqrtQ (q : ℚ) : ℚ :=
  (Nat.sqrt (q.num.toNat * q.den) : ℚ) / (q.den : ℚ)

/-- Checked rational division: `none` records that the source program
performed a division whose divisor is zero (a NaN / div-by-zero hazard in
the floating-point original). -/
def qdiv (a b : ℚ) : Option ℚ :=
  if b = 0 then none else some (a / b)

/-- C `round()`: nearest integer, halves rounded away from zero. -/
def cRound (q : ℚ) : ℤ :=
  if 0 ≤ q then ⌊q + 1/2⌋ else ⌈q - 1/2⌉

/-- `RAND_MAX` of glibc. -/
def RAND_MAX : ℕ := 2147483647

/-- The pieces of the C runtime that are external to the sources: the
`rand()` stream (indexed by a cursor threaded through the state) and the
transcendental functions used only to shape particle velocities.  All are
unconstrained parameters; no proved property depends on their values. -/
structure Env where
  rand : ℕ → ℕ
  cosQ : ℚ → ℚ
  sinQ : ℚ → ℚ
  piQ : ℚ

/-! ## Shooter demo (`src/main.cpp`): global constants -/

namespace Shooter

def WINDOW_WIDTH : ℚ := 800
def WINDOW_HEIGHT : ℚ := 600
def PLAYER_SPEED : ℚ := 300
def JUMP_VELOCITY : ℚ := -400
def GRAVITY : ℚ := 981
def BULLET_SPEED : ℚ := 800
def VOXEL_SIZE : ℚ := 4
def DRAW_RADIUS : ℚ := 3 * VOXEL_SIZE
def STEP_HEIGHT : ℚ := VOXEL_SIZE * 1
def EXPLOSION_RADIUS : ℚ := VOXEL_SIZE * 4
def PARTICLE_LIFETIME : ℚ := 1.2
def SCREEN_SHAKE_DURATION : ℚ := 0.2
def SCREEN_SHAKE_INTENSITY : ℚ := 8

/-! ## Shooter: vector helpers (`main.cpp` lines 22–31) -/

/-- `vectorLength` from `main.cpp`: `sqrt(x*x + y*y)`. -/
def vectorLength (v : Vec2) : ℚ :=
  sqrtQ (v.1 * v.1 + v.2 * v.2)

/-- `normalize` from `main.cpp`: `length > 0 ? vec / length : vec`. -/
def normalize (v : Vec2) : Vec2 :=
  let length := vectorLength v
  if length > 0 then (v.1 / length, v.2 / length) else v

/-- `normalize` with its two divisions checked for division by zero. -/
def normalizeChecked (v : Vec2) : Option Vec2 :=
  let length := vectorLength v
  if length > 0 then do
    let x ← qdiv v.1 length
    let y ← qdiv v.2 length
    pure (x, y)
  else pure v

/-- The bullet-direction computation of `Game::handleEvents`
(`main.cpp` lines 310–313): `direction = mouse - playerCenter`,
`length = sqrt(dx*dx + dy*dy)`, then the unguarded `direction /= length`,
with the two divisions checked for division by zero. -/
def bulletDirectionChecked (mousePos playerCenter : Vec2) : Option Vec2 :=
  let direction : Vec2 := (mousePos.1 - playerCenter.1, mousePos.2 - playerCenter.2)
  let length := sqrtQ (direction.1 * direction.1 + direction.2 * direction.2)
  do
    let x ← qdiv direction.1 length
    let y ← qdiv direction.2 length
    pure (x, y)

/-! ## Shooter: game state (`main.cpp` classes `Player`, `Bullet`, `Voxel`,
`Particle`, `Game`) -/

/-- An axis-aligned rectangle, as `sf::FloatRect`. -/
structure Rect where
  left : ℚ
  top : ℚ
  width : ℚ
  height : ℚ
deriving DecidableEq

/-- `sf::FloatRect::intersects`: strict overlap on both axes. -/
def Rect.intersects (a b : Rect) : Bool :=
  decide (max a.left b.left < min (a.left + a.width) (b.left + b.width)) &&
  decide (max a.top b.top < min (a.top + a.height) (b.top + b.height))

/-- The player's shape is a 30×30 rectangle (set in the `Player`
constructor and never resized); its global bounds at position `pos`. -/
def playerRect (pos : Vec2) : Rect :=
  ⟨pos.1, pos.2, 30, 30⟩

/-- A voxel's global bounds: a `VOXEL_SIZE × VOXEL_SIZE` square at its
position. -/
def voxelRect (pos : Vec2) : Rect :=
  ⟨pos.1, pos.2, VOXEL_SIZE, VOXEL_SIZE⟩

/-- A bullet's shape is a 5×5 rectangle. -/
def bulletRect (pos : Vec2) : Rect :=
  ⟨pos.1, pos.2, 5, 5⟩

/-- `Player`: position, explicitly stored velocity, jump flag. -/
structure Player where
  pos : Vec2
  vel : Vec2
  isJumping : Bool
deriving DecidableEq

/-- `Bullet`: position and explicitly stored velocity. -/
structure Bullet where
  pos : Vec2
  vel : Vec2
deriving DecidableEq

/-- `Particle` of the shooter: position, explicitly stored velocity,
fill color (RGBA bytes) and remaining lifetime. -/
structure GParticle where
  pos : Vec2
  vel : Vec2
  colorR : ℕ
  colorG : ℕ
  colorB : ℕ
  colorA : ℕ
  lifetime : ℚ
deriving DecidableEq

/-- `static_cast<sf::Uint8>` of a float: truncation toward zero for
values in range (the out-of-range cast is undefined behavior in C++ and is
modelled as the same formula). -/
def u8ofQ (q : ℚ) : ℕ :=
  (⌊q⌋).toNat % 256

/-- `Particle::update` (`main.cpp` lines 91–101): decrement lifetime,
move by `velocity * dt`, fade alpha; returns the updated particle and
`lifetime > 0` (whether it survives). -/
def GParticle.update (dt : ℚ) (p : GParticle) : GParticle × Bool :=
  let lt := p.lifetime - dt
  ({ p with
      lifetime := lt
      pos := (p.pos.1 + p.vel.1 * dt, p.pos.2 + p.vel.2 * dt)
      colorA := u8ofQ (255 * (lt / PARTICLE_LIFETIME)) },
   decide (lt > 0))

/-- The mutable state of `Game` that the per-frame computation touches
(window/shaders excluded as presentation).  `cursor` is the position in
the `rand()` stream. -/
structure GameState where
  player : Player
  bullets : List Bullet
  voxels : List Vec2
  particles : List GParticle
  isDrawing : Bool
  screenShakeTime : ℚ
  screenShakeOffset : Vec2
  cursor : ℕ
deriving DecidableEq

/-- The inputs one call of `Game::update` observes: the polled keyboard
keys and the frame's `deltaTime`. -/
structure GameInput where
  keyA : Bool
  keyD : Bool
  keySpace : Bool
  dt : ℚ
deriving DecidableEq

/-- `Game::checkVoxelCollision`: does `bounds` intersect any voxel? -/
def checkVoxelCollision (voxels : List Vec2) (bounds : Rect) : Bool :=
  voxels.any (fun v => bounds.intersects (voxelRect v))

/-- `Game::canStepUp`: blocked at `pos` but free one `STEP_HEIGHT` up. -/
def canStepUp (voxels : List Vec2) (pos : Vec2) : Bool :=
  if !(checkVoxelCollision voxels (playerRect pos)) then false
  else !(checkVoxelCollision voxels (playerRect (pos.1, pos.2 - STEP_HEIGHT)))

/-- `Game::handleCollisions` (`main.cpp` lines 225–277).  Takes the
voxels, the player's old position, its (gravity-updated) velocity, the
jump flag and the tentative new position; returns the corrected new
position, velocity and jump flag.  The final airborne check reuses the
bounds computed before the vertical revert, exactly as the source does. -/
def handleCollisions (voxels : List Vec2) (oldPos vel0 : Vec2)
    (jumping0 : Bool) (newPos0 : Vec2) : Vec2 × Vec2 × Bool :=
  -- first, try horizontal movement
  let hb1 := playerRect (newPos0.1, oldPos.2)
  let horiz :=
    if checkVoxelCollision voxels hb1 then
      if canStepUp voxels (newPos0.1, oldPos.2) then
        ((newPos0.1, oldPos.2 - STEP_HEIGHT), vel0.1)
      else
        ((oldPos.1, newPos0.2), (0 : ℚ))
    else (newPos0, vel0.1)
  let np1 := horiz.1
  let vx1 := horiz.2
  -- then, try vertical movement
  let hb2 := playerRect np1
  let vert :=
    if checkVoxelCollision voxels hb2 then
      if vel0.2 > 0 then ((np1.1, oldPos.2), (0 : ℚ), false)
      else if vel0.2 < 0 then ((np1.1, oldPos.2), (0 : ℚ), jumping0)
      else (np1, vel0.2, jumping0)
    else (np1, vel0.2, jumping0)
  let np2 := vert.1
  let vy2 := vert.2.1
  let j2 := vert.2.2
  -- airborne check with the (possibly stale) hb2 bounds, as in the source
  let j3 :=
    if !(checkVoxelCollision voxels hb2) then
      if !(checkVoxelCollision voxels { hb2 with top := hb2.top + 1 }) then true
      else j2
    else j2
  (np2, (vx1, vy2), j3)

/-- The player portion of `Game::update` before the window-bounds clamp
(`main.cpp` lines 387–408): keyboard movement, jump, gravity, tentative
integration and `handleCollisions`. -/
def playerPhasePostCollision (voxels : List Vec2) (p : Player)
    (i : GameInput) : Vec2 × Vec2 × Bool :=
  let vx := if i.keyA then -PLAYER_SPEED else if i.keyD then PLAYER_SPEED else 0
  let jump := i.keySpace && !p.isJumping
  let vy0 := if jump then JUMP_VELOCITY else p.vel.2
  let j0 := if jump then true else p.isJumping
  let vy := vy0 + GRAVITY * i.dt
  let newPos := (p.pos.1 + vx * i.dt, p.pos.2 + vy * i.dt)
  handleCollisions voxels p.pos (vx, vy) j0 newPos

/-- The full player portion of `Game::update` including the
window-bounds clamps (`main.cpp` lines 387–422). -/
def playerPhase (voxels : List Vec2) (p : Player) (i : GameInput) : Player :=
  let pc := playerPhasePostCollision voxels p i
  let np := pc.1
  let vel := pc.2.1
  let j := pc.2.2
  let x1 := if np.1 < 0 then 0 else np.1
  let x2 := if x1 > WINDOW_WIDTH - 30 then WINDOW_WIDTH - 30 else x1
  let bottom :=
    if np.2 > WINDOW_HEIGHT - 30 then (WINDOW_HEIGHT - 30, (0 : ℚ), false)
    else (np.2, vel.2, j)
  { pos := (x2, bottom.1), vel := (vel.1, bottom.2.1), isJumping := bottom.2.2 }

/-! ## Shooter: explosions, bullets, screen shake, particles
(`main.cpp` lines 328–480) -/

/-- One of the 20 burst particles of `Game::createExplosion`
(lines 334–340): random angle in degrees converted with the literal
`3.14159`, random speed in `[100, 200)`, fixed orange color. -/
def explosionBurstParticle (env : Env) (pos : Vec2) (k : ℕ) : GParticle :=
  let angle := ((env.rand k % 360 : ℕ) : ℚ) * 3.14159 / 180
  let speed := 100 + ((env.rand (k + 1) % 100 : ℕ) : ℚ)
  ⟨pos, (env.cosQ angle * speed, env.sinQ angle * speed),
   255, 200, 0, 255, PARTICLE_LIFETIME⟩

/-- One of the 3 debris particles per destroyed voxel (lines 353–359):
random angle, random speed in `[50, 100)`, white. -/
def debrisParticle (env : Env) (pos : Vec2) (k : ℕ) : GParticle :=
  let angle := ((env.rand k % 360 : ℕ) : ℚ) * 3.14159 / 180
  let speed := 50 + ((env.rand (k + 1) % 50 : ℕ) : ℚ)
  ⟨pos, (env.cosQ angle * speed, env.sinQ angle * speed),
   255, 255, 255, 255, PARTICLE_LIFETIME⟩

/-- `Game::createExplosion` (lines 328–367): start the screen shake,
spawn 20 burst particles, then walk the voxel list in order destroying
every voxel within `EXPLOSION_RADIUS` (strict; `sqrt d < r` translated to
`d < r^2`) and spawning 3 debris particles per destroyed voxel.  Returns
the surviving voxels, the grown particle list, the new shake timer and
the advanced `rand()` cursor. -/
def createExplosion (env : Env) (position : Vec2) (voxels : List Vec2)
    (particles : List GParticle) (k : ℕ) : List Vec2 × List GParticle × ℚ × ℕ :=
  let burst := (List.range 20).map (fun i => explosionBurstParticle env position (k + 2 * i))
  let start : List Vec2 × List GParticle × ℕ := ([], particles ++ burst, k + 40)
  let step := fun (acc : List Vec2 × List GParticle × ℕ) (v : Vec2) =>
    if (v.1 - position.1) * (v.1 - position.1) + (v.2 - position.2) * (v.2 - position.2)
        < EXPLOSION_RADIUS * EXPLOSION_RADIUS then
      (acc.1,
       acc.2.1 ++ (List.range 3).map (fun i => debrisParticle env v (acc.2.2 + 2 * i)),
       acc.2.2 + 6)
    else (acc.1 ++ [v], acc.2.1, acc.2.2)
  let fin := voxels.foldl step start
  (fin.1, fin.2.1, SCREEN_SHAKE_DURATION, fin.2.2)

/-- The per-bullet body of the bullet loop in `Game::update`
(lines 425–463): move, maybe spawn a trail particle (one `rand()` call
per bullet), check collision against the current voxels, explode on hit,
drop the bullet when hit or out of bounds. -/
def bulletStep (env : Env) (dt : ℚ)
    (acc : List Bullet × List Vec2 × List GParticle × ℚ × ℕ) (b : Bullet) :
    List Bullet × List Vec2 × List GParticle × ℚ × ℕ :=
  let (bs, vs, ps, shake, k) := acc
  let pos := (b.pos.1 + b.vel.1 * dt, b.pos.2 + b.vel.2 * dt)
  let trail :=
    if env.rand k % 2 = 0 then
      ps ++ [⟨pos, (0, 0), 255, 255, 0, 128, PARTICLE_LIFETIME⟩]
    else ps
  let k1 := k + 1
  let hit := checkVoxelCollision vs (bulletRect pos)
  if hit then
    let ex := createExplosion env pos vs trail k1
    (bs, ex.1, ex.2.1, ex.2.2.1, ex.2.2.2)
  else if pos.1 < 0 ∨ pos.1 > WINDOW_WIDTH ∨ pos.2 < 0 ∨ pos.2 > WINDOW_HEIGHT then
    (bs, vs, trail, shake, k1)
  else
    (bs ++ [{ b with pos := pos }], vs, trail, shake, k1)

/-- `Game::updateScreenShake` (lines 369–383). -/
def updateScreenShake (env : Env) (dt shakeTime : ℚ) (_offset : Vec2) (k : ℕ) :
    ℚ × Vec2 × ℕ :=
  if shakeTime > 0 then
    let st := shakeTime - dt
    let intensity := st / SCREEN_SHAKE_DURATION * SCREEN_SHAKE_INTENSITY
    (st,
     ((((env.rand k % 100 : ℕ) : ℚ) - 50) * 0.01 * intensity,
      (((env.rand (k + 1) % 100 : ℕ) : ℚ) - 50) * 0.01 * intensity),
     k + 2)
  else (shakeTime, (0, 0), k)

/-- The particle update-and-prune loop of `Game::update` (lines 469–479). -/
def particlesPhase (dt : ℚ) : List GParticle → List GParticle
  | [] => []
  | p :: ps =>
      let u := GParticle.update dt p
      if u.2 then u.1 :: particlesPhase dt ps else particlesPhase dt ps

/-- One full call of `Game::update` (lines 385–480): player phase, bullet
loop (with explosions), screen shake, particle pruning. -/
def gameUpdate (env : Env) (s : GameState) (i : GameInput) : GameState :=
  let p1 := playerPhase s.voxels s.player i
  let bres := s.bullets.foldl (bulletStep env i.dt) ([], s.voxels, s.particles, s.screenShakeTime, s.cursor)
  let sres := updateScreenShake env i.dt bres.2.2.2.1 s.screenShakeOffset bres.2.2.2.2
  { s with
      player := p1
      bullets := bres.1
      voxels := bres.2.1
      particles := particlesPhase i.dt bres.2.2.1
      screenShakeTime := sres.1
      screenShakeOffset := sres.2.1
      cursor := sres.2.2 }

end Shooter

/-! ## Fireworks demo (`src/combined.frag`, second half) -/

namespace Fireworks

/-- `Particle` of the fireworks demo: position, explicitly stored
velocity, color (RGB bytes) and remaining lifespan in seconds. -/
structure Particle where
  pos : Vec2
  vel : Vec2
  colorR : ℕ
  colorG : ℕ
  colorB : ℕ
  lifespan : ℚ
deriving DecidableEq

/-- `Particle::update` (`combined.frag` fireworks lines 73–80): move by
`velocity * dt`, then apply gravity `98.1` to the stored velocity, then
decrease the lifespan. -/
def Particle.update (dt : ℚ) (p : Particle) : Particle :=
  { p with
      pos := (p.pos.1 + p.vel.1 * dt, p.pos.2 + p.vel.2 * dt)
      vel := (p.vel.1, p.vel.2 + 98.1 * dt)
      lifespan := p.lifespan - dt }

/-- `Firework`: its particles (the single rocket while unexploded),
the explosion flag and the recorded explosion position. -/
structure Firework where
  particles : List Particle
  exploded : Bool
  explosionPosition : Vec2
deriving DecidableEq

/-- The `Firework` constructor (lines 89–94): one white rocket particle
with velocity `(0, -300)` and lifespan 2. -/
def Firework.launch (position : Vec2) : Firework :=
  ⟨[⟨position, (0, -300), 255, 255, 255, 2⟩], false, position⟩

/-- One of the 100 explosion particles (lines 126–133): random angle in
`[0, 2π)`, random speed in `[50, 250)`, random color, lifespan 2, spawned
at the explosion position.  Consumes five `rand()` values. -/
def explosionParticle (env : Env) (pos : Vec2) (k : ℕ) : Particle :=
  let angle := ((env.rand k : ℕ) : ℚ) / (RAND_MAX : ℚ) * 2 * env.piQ
  let speed := ((env.rand (k + 1) : ℕ) : ℚ) / (RAND_MAX : ℚ) * 200 + 50
  ⟨pos, (env.cosQ angle * speed, env.sinQ angle * speed),
   env.rand (k + 2) % 256, env.rand (k + 3) % 256, env.rand (k + 4) % 256, 2⟩

/-- `Firework::explode` (lines 117–135): record the rocket's position,
erase the rocket (the head of the particle list), then append 100
explosion particles.  On an empty particle list the source indexes
`particles[0]`, which is undefined behavior and unreachable from the
constructor; modelled as a no-op. -/
def Firework.explode (env : Env) (f : Firework) (k : ℕ) : Firework × ℕ :=
  match f.particles with
  | [] => ({ f with exploded := true }, k)
  | r :: rest =>
      (⟨rest ++ (List.range 100).map (fun i => explosionParticle env r.pos (k + 5 * i)),
        true, r.pos⟩,
       k + 500)

/-- The exploded-branch particle loop of `Firework::update`
(lines 106–114): update each particle, erase it when `lifespan ≤ 0`. -/
def updateAndPrune (dt : ℚ) : List Particle → List Particle
  | [] => []
  | p :: ps =>
      let p' := Particle.update dt p
      if p'.lifespan ≤ 0 then updateAndPrune dt ps
      else p' :: updateAndPrune dt ps

/-- `Firework::update` (lines 96–115): while unexploded, update the
rocket (`particles[0]`) and explode as soon as its updated vertical
velocity is `≥ 0`; once exploded, update and prune the explosion
particles.  Returns the firework and the advanced `rand()` cursor. -/
def Firework.update (env : Env) (dt : ℚ) (f : Firework) (k : ℕ) : Firework × ℕ :=
  if f.exploded then
    ({ f with particles := updateAndPrune dt f.particles }, k)
  else
    match f.particles with
    | [] => (f, k)   -- unreachable `particles[0]` UB; modelled as a no-op
    | r :: rest =>
        let r' := Particle.update dt r
        let f' : Firework := ⟨r' :: rest, false, f.explosionPosition⟩
        if r'.vel.2 ≥ 0 then Firework.explode env f' k
        else (f', k)

/-- `Firework::isFinished` (lines 137–139). -/
def Firework.isFinished (f : Firework) : Bool :=
  f.exploded && f.particles.isEmpty

/-- The whole world state of the fireworks `main`: the active fireworks
and the `rand()` cursor. -/
structure World where
  fireworks : List Firework
  cursor : ℕ
deriving DecidableEq

/-- The inputs one frame of the fireworks `main` loop observes: the
wall-clock `dt` returned by `clock.restart()` and the frame's left-click
positions in poll order. -/
structure FrameInput where
  dt : ℚ
  clicks : List Vec2
deriving DecidableEq

/-- The event-handling loop of `main` (lines 161–174): each left click
appends a freshly launched firework. -/
def handleClicks (clicks : List Vec2) (fs : List Firework) : List Firework :=
  clicks.foldl (fun acc c => acc ++ [Firework.launch c]) fs

/-- The update-and-prune loop of `main` (lines 176–184): update every
firework in order (threading the `rand()` cursor) and erase the finished
ones. -/
def updateFireworks (env : Env) (dt : ℚ) : List Firework → ℕ → List Firework × ℕ
  | [], k => ([], k)
  | f :: fs, k =>
      let u := Firework.update env dt f k
      let rest := updateFireworks env dt fs u.2
      if u.1.isFinished then rest else (u.1 :: rest.1, rest.2)

/-- The auto-launch step of `main` (lines 186–190): with probability
`rand() % 100 < 2`, launch a firework at a random x on the bottom edge
(one further `rand()` call); otherwise only the probability check's
`rand()` call is consumed. -/
def autoLaunch (env : Env) (fs : List Firework) (k : ℕ) : World :=
  if env.rand k % 100 < 2 then
    ⟨fs ++ [Firework.launch (((env.rand (k + 1) % 800 : ℕ) : ℚ), 600)], k + 2⟩
  else ⟨fs, k + 1⟩

/-- One iteration of the fireworks `main` loop (lines 156–204), as a
function of the pre-frame world and the frame input: handle click events,
update-and-prune all fireworks, then the auto-launch step (rendering
reads the result and mutates nothing). -/
def frame (env : Env) (w : World) (i : FrameInput) : World :=
  let fs1 := handleClicks i.clicks w.fireworks
  let u := updateFireworks env i.dt fs1 w.cursor
  autoLaunch env u.1 u.2

/-- The fireworks `main` run loop: the world starts empty, and frame `n`
is driven by `wall n`, the wall-clock time elapsed between frames as
returned by `clock.restart()`, and `clicks n`, that frame's click events. -/
def run (env : Env) (wall : ℕ → ℚ) (clicks : ℕ → List Vec2) : ℕ → World
  | 0 => ⟨[], 0⟩
  | n + 1 => frame env (run env wall clicks n) ⟨wall n, clicks n⟩

end Fireworks

/-! ## Rope / constraint-physics core (spec §3–§4)

The rope demo's source is not present under `src/`; the definitions in
this section are modelled from the specification text. -/

namespace Rope

/-- Modelled from the spec: §3 `Point` — current position, previous
position, locked flag.  The rope demo's source file is absent from
`src/`. -/
structure Point where
  position : Vec2
  previousPosition : Vec2
  locked : Bool
deriving DecidableEq

/-- Modelled from the spec: §4.1 position-Verlet integration —
`velocity = (position - previousPosition) * damping;
previousPosition = position;
position = position + velocity + acceleration * dt^2`,
skipped entirely for locked points.  The rope demo's source file is
absent from `src/`. -/
def integratePoint (gravity : Vec2) (damping dt : ℚ) (p : Point) : Point :=
  if p.locked then p
  else
    let velocity : Vec2 :=
      ((p.position.1 - p.previousPosition.1) * damping,
       (p.position.2 - p.previousPosition.2) * damping)
    { position :=
        (p.position.1 + velocity.1 + gravity.1 * dt ^ 2,
         p.position.2 + velocity.2 + gravity.2 * dt ^ 2)
      previousPosition := p.position
      locked := p.locked }

/-- `n` integration steps of §4.1. -/
def integrateN (gravity : Vec2) (damping dt : ℚ) : ℕ → Point → Point
  | 0, p => p
  | n + 1, p => integratePoint gravity damping dt (integrateN gravity damping dt n p)

/-- Modelled from the spec: §4.2 distance-constraint relaxation —
`delta = B.position - A.position`, `currentLength = |delta|`,
`diff = (currentLength - L) / currentLength`, move A by
`0.5 * diff * delta` and B by the opposite, skipping locked points, and
skipping the whole correction when `currentLength == 0`.  The rope demo's
source file is absent from `src/`. -/
def relaxConstraint (L : ℚ) (A B : Point) : Point × Point :=
  let delta : Vec2 := (B.position.1 - A.position.1, B.position.2 - A.position.2)
  let currentLength := sqrtQ (delta.1 * delta.1 + delta.2 * delta.2)
  if currentLength = 0 then (A, B)
  else
    let diff := (currentLength - L) / currentLength
    let corr : Vec2 := (1/2 * diff * delta.1, 1/2 * diff * delta.2)
    (if A.locked then A
     else { A with position := (A.position.1 + corr.1, A.position.2 + corr.2) },
     if B.locked then B
     else { B with position := (B.position.1 - corr.1, B.position.2 - corr.2) })

/-- §4.2 relaxation with its division checked for division by zero. -/
def relaxConstraintChecked (L : ℚ) (A B : Point) : Option (Point × Point) :=
  let delta : Vec2 := (B.position.1 - A.position.1, B.position.2 - A.position.2)
  let currentLength := sqrtQ (delta.1 * delta.1 + delta.2 * delta.2)
  if currentLength = 0 then some (A, B)
  else do
    let diff ← qdiv (currentLength - L) currentLength
    let corr : Vec2 := (1/2 * diff * delta.1, 1/2 * diff * delta.2)
    pure
      (if A.locked then A
       else { A with position := (A.position.1 + corr.1, A.position.2 + corr.2) },
       if B.locked then B
       else { B with position := (B.position.1 - corr.1, B.position.2 - corr.2) })

end Rope

/-! ## The fireworks frame as a step relation (for determinism) -/

namespace Fireworks

/-- The event-handling loop of `main` as a step relation: one step per
polled click, each appending a launch. -/
inductive ClicksRel : List Vec2 → List Firework → List Firework → Prop
  | nil (fs : List Firework) : ClicksRel [] fs fs
  | cons (c : Vec2) (cs : List Vec2) (fs fs' : List Firework) :
      ClicksRel cs (fs ++ [Firework.launch c]) fs' →
      ClicksRel (c :: cs) fs fs'

/-- The update-and-prune loop of `main` as a step relation: one step per
firework, threading the `rand()` cursor, erasing finished fireworks. -/
inductive UpdRel (env : Env) (dt : ℚ) :
    List Firework → ℕ → List Firework → ℕ → Prop
  | nil (k : ℕ) : UpdRel env dt [] k [] k
  | keep (f : Firework) (fs : List Firework) (k : ℕ) (f' : Firework)
      (k₁ : ℕ) (fs' : List Firework) (k₂ : ℕ) :
      Firework.update env dt f k = (f', k₁) →
      f'.isFinished = false →
      UpdRel env dt fs k₁ fs' k₂ →
      UpdRel env dt (f :: fs) k (f' :: fs') k₂
  | drop (f : Firework) (fs : List Firework) (k : ℕ) (f' : Firework)
      (k₁ : ℕ) (fs' : List Firework) (k₂ : ℕ) :
      Firework.update env dt f k = (f', k₁) →
      f'.isFinished = true →
      UpdRel env dt fs k₁ fs' k₂ →
      UpdRel env dt (f :: fs) k fs' k₂

/-- One frame of the fireworks `main` loop as a relation between the
pre-frame world and the post-frame world, given the frame's inputs:
clicks handled, then the update-and-prune loop, then the auto-launch. -/
def FrameRel (env : Env) (w : World) (i : FrameInput) (w' : World) : Prop :=
  ∃ fs₁ fs₂ k₂,
    ClicksRel i.clicks w.fireworks fs₁ ∧
    UpdRel env i.dt fs₁ w.cursor fs₂ k₂ ∧
    w' = autoLaunch env fs₂ k₂

end Fireworks

/-! ## The shooter frame as an action trace (for phase ordering)

`Game::run` (`main.cpp` lines 149–160) executes per frame:
`clock.restart()`, `handleEvents()`, `update(dt)`, `render()`.  The trace
below lists, in program order, every observation of an input source
(clock, event queue, keyboard, mouse position) and every mutation of game
state performed by that frame, ending with the presentation of the frame. -/

namespace Shooter

/-- One observable action of a frame. -/
inductive Action
  | obsClock
  | obsEvent
  | obsKeyboard
  | obsMouse
  | updState
  | present
deriving DecidableEq

/-- The events `Game::handleEvents` distinguishes. -/
inductive SEvent
  | leftPress
  | leftRelease
  | rightPress
  | otherEvent
deriving DecidableEq

/-- The actions performed for one polled event (lines 282–317): every
event is observed from the queue; a left press/release writes the
`isDrawing` flag; a right press reads the mouse position and emplaces a
bullet. -/
def eventTrace : SEvent → List Action
  | SEvent.leftPress => [Action.obsEvent, Action.updState]
  | SEvent.leftRelease => [Action.obsEvent, Action.updState]
  | SEvent.rightPress => [Action.obsEvent, Action.obsMouse, Action.updState]
  | SEvent.otherEvent => [Action.obsEvent]

/-- The value of `isDrawing` after the event loop, given its value at
frame start. -/
def drawingAfter (d0 : Bool) : List SEvent → Bool
  | [] => d0
  | SEvent.leftPress :: es => drawingAfter true es
  | SEvent.leftRelease :: es => drawingAfter false es
  | _ :: es => drawingAfter d0 es

/-- The trace of `Game::handleEvents` (lines 279–326): the per-event
actions, the final empty poll, and — if drawing — a mouse read followed
by voxel spawning. -/
def handleEventsTrace (evs : List SEvent) (d0 : Bool) : List Action :=
  (evs.map eventTrace).flatten ++ [Action.obsEvent] ++
    (if drawingAfter d0 evs then [Action.obsMouse, Action.updState] else [])

/-- The trace of `Game::update` (lines 385–480): keyboard reads for A
(and D when A is up), the horizontal-velocity write, the Space read, the
jump write when taken, then the gravity / integration / collision /
clamp writes, one write per bullet-loop iteration, the screen-shake
write, and one write per particle. -/
def updateTrace (keyA jumpTaken : Bool) (nBullets nParticles : ℕ) : List Action :=
  [Action.obsKeyboard] ++
  (if keyA then [] else [Action.obsKeyboard]) ++
  [Action.updState] ++
  [Action.obsKeyboard] ++
  (if jumpTaken then [Action.updState] else []) ++
  [Action.updState, Action.updState, Action.updState, Action.updState] ++
  List.replicate nBullets Action.updState ++
  [Action.updState] ++
  List.replicate nParticles Action.updState

/-- The trace of one whole iteration of `Game::run` (lines 153–159):
clock restart, event handling, update, then rendering. -/
def frameTrace (evs : List SEvent) (d0 keyA jumpTaken : Bool)
    (nBullets nParticles : ℕ) : List Action :=
  [Action.obsClock] ++ handleEventsTrace evs d0 ++
    updateTrace keyA jumpTaken nBullets nParticles ++ [Action.present]

/-- Is an action an observation of an input source? -/
def Action.isObs : Action → Bool
  | Action.obsClock => true
  | Action.obsEvent => true
  | Action.obsKeyboard => true
  | Action.obsMouse => true
  | _ => false

/-- Does every input observation precede every state update?  (`true`
iff no observation occurs after an update.) -/
def inputsBeforeUpdates : List Action → Bool
  | [] => true
  | Action.updState :: rest => rest.all (fun a => !a.isObs) && inputsBeforeUpdates rest
  | _ :: rest => inputsBeforeUpdates rest

end Shooter

/-! ## Shooter: voxel drawing (`main.cpp` lines 192–223) -/

namespace Shooter

/-- The offsets visited by the two `for (float v = -DRAW_RADIUS;
v <= DRAW_RADIUS; v += VOXEL_SIZE)` loops: `-12, -8, …, 12` (exact in
float arithmetic). -/
def spawnOffsets : List ℚ :=
  (List.range 7).map (fun i => -DRAW_RADIUS + VOXEL_SIZE * i)

/-- Snapping one coordinate to the voxel grid:
`round((center + off) / VOXEL_SIZE) * VOXEL_SIZE`. -/
def snapCoord (c off : ℚ) : ℚ :=
  ((cRound ((c + off) / VOXEL_SIZE) : ℤ) : ℚ) * VOXEL_SIZE

/-- The body of the inner loop of `Game::spawnVoxelsInRadius`: if the
offset lies within `DRAW_RADIUS` (`sqrt d ≤ r` translated to
`d ≤ r * r`), snap the position to the grid and emplace a voxel unless
one already exists at exactly that position. -/
def spawnStep (center : Vec2) (vs : List Vec2) (off : ℚ × ℚ) : List Vec2 :=
  if off.1 * off.1 + off.2 * off.2 ≤ DRAW_RADIUS * DRAW_RADIUS then
    let p : Vec2 := (snapCoord center.1 off.1, snapCoord center.2 off.2)
    if p ∈ vs then vs else vs ++ [p]
  else vs

/-- `Game::spawnVoxelsInRadius` (lines 192–223): outer loop over x
offsets, inner loop over y offsets. -/
def spawnVoxelsInRadius (center : Vec2) (vs : List Vec2) : List Vec2 :=
  (spawnOffsets.flatMap (fun x => spawnOffsets.map (fun y => (x, y)))).foldl
    (spawnStep center) vs

end Shooter

/-! ## Concrete test fixtures used by witnesses and counterexamples -/

/-- A concrete environment: a `rand()` stream that always yields 50 (so
the auto-launch check `50 % 100 < 2` fails), trivial `cos`/`sin`, `π`
stand-in 3. -/
def constEnv : Env := ⟨fun _ => 50, fun _ => 0, fun _ => 0, 3⟩

/-- A world holding one just-launched rocket at `(400, 600)`. -/
def oneRocketWorld : Fireworks.World := ⟨[Fireworks.Firework.launch (400, 600)], 0⟩

/-- A rocket particle in mid-flight at `(10, 20)` with the launch
velocity `(0, -300)`. -/
def midFlightRocket : Fireworks.Particle := ⟨(10, 20), (0, -300), 255, 255, 255, 2⟩

/-- A shooter state with the player high above the bottom clamp and no
voxels, bullets or particles. -/
def clampState : Shooter.GameState :=
  ⟨⟨(100, 1000), (0, 0), false⟩, [], [], [], false, 0, (0, 0), 0⟩

/-- A quiet input: no keys pressed, `dt = 0`. -/
def quietInput : Shooter.GameInput := ⟨false, false, false, 0⟩

/-! # Helper lemmas -/

theorem sqrtQ_zero : sqrtQ 0 = 0 := by
  unfold sqrtQ
  norm_num

theorem sqrtQ_pos {q : ℚ} (h : 0 < q) : 0 < sqrtQ q := by
  unfold sqrtQ
  have hnum : 0 < q.num := Rat.num_pos.mpr h
  have hden : 0 < q.den := q.pos
  have h1 : 1 ≤ q.num.toNat * q.den := by
    have : 1 ≤ q.num.toNat := by omega
    have : 1 * 1 ≤ q.num.toNat * q.den := Nat.mul_le_mul this hden
    simpa using this
  have hs : 0 < Nat.sqrt (q.num.toNat * q.den) := by
    have := Nat.sqrt_pos.mpr (by omega : 0 < q.num.toNat * q.den)
    exact this
  positivity

theorem sqrtQ_nonpos {q : ℚ} (h : q ≤ 0) : sqrtQ q = 0 := by
  unfold sqrtQ
  have hnum : q.num ≤ 0 := Rat.num_nonpos.mpr h
  have : q.num.toNat = 0 := by omega
  simp [this]

theorem sqrtQ_eq_zero_iff {q : ℚ} (h : 0 ≤ q) : sqrtQ q = 0 ↔ q = 0 := by
  constructor
  · intro hz
    by_contra hq
    have : 0 < q := lt_of_le_of_ne h (Ne.symm hq)
    exact absurd hz (ne_of_gt (sqrtQ_pos this))
  · intro hq; subst hq; exact sqrtQ_zero

theorem qdiv_isSome_iff (a b : ℚ) : (qdiv a b).isSome ↔ b ≠ 0 := by
  unfold qdiv
  by_cases hb : b = 0 <;> simp [hb]

namespace Shooter

theorem vectorLength_nonneg (v : Vec2) : 0 ≤ vectorLength v := by
  unfold vectorLength
  rcases lt_trichotomy (v.1 * v.1 + v.2 * v.2) 0 with h | h | h
  · rw [sqrtQ_nonpos (le_of_lt h)]
  · rw [h, sqrtQ_zero]
  · exact le_of_lt (sqrtQ_pos h)

theorem vectorLength_eq_zero_iff (v : Vec2) : vectorLength v = 0 ↔ v = (0, 0) := by
  unfold vectorLength
  have hsq : 0 ≤ v.1 * v.1 + v.2 * v.2 :=
    add_nonneg (mul_self_nonneg _) (mul_self_nonneg _)
  rw [sqrtQ_eq_zero_iff hsq]
  constructor
  · intro h
    have h1 : v.1 = 0 ∧ v.2 = 0 := by
      constructor
      · nlinarith [mul_self_nonneg v.1, mul_self_nonneg v.2]
      · nlinarith [mul_self_nonneg v.1, mul_self_nonneg v.2]
    exact Prod.ext h1.1 h1.2
  · intro h; rw [h]; norm_num

end Shooter

namespace Fireworks

theorem clicksRel_deterministic {cs : List Vec2} {fs fs₁ fs₂ : List Firework}
    (h₁ : ClicksRel cs fs fs₁) (h₂ : ClicksRel cs fs fs₂) : fs₁ = fs₂ := by
  induction h₁ generalizing fs₂ with
  | nil fs => cases h₂; rfl
  | cons c cs fs fs' _ ih =>
      cases h₂ with
      | cons _ _ _ _ h => exact ih h

theorem updRel_deterministic {env : Env} {dt : ℚ} {fs : List Firework} {k : ℕ}
    {fs₁ : List Firework} {k₁ : ℕ} {fs₂ : List Firework} {k₂ : ℕ}
    (h₁ : UpdRel env dt fs k fs₁ k₁) (h₂ : UpdRel env dt fs k fs₂ k₂) :
    fs₁ = fs₂ ∧ k₁ = k₂ := by
  induction h₁ generalizing fs₂ k₂ with
  | nil k => cases h₂; exact ⟨rfl, rfl⟩
  | keep f fs k f' ka fs' kb hu hfin _ ih =>
      cases h₂ with
      | keep _ _ _ g' ka' gs' kb' hu' hfin' hrest =>
          rw [hu] at hu'
          obtain ⟨hf, hk⟩ := Prod.mk.injEq .. ▸ hu'
          subst hf; subst hk
          obtain ⟨he, hk⟩ := ih hrest
          exact ⟨by rw [he], hk⟩
      | drop _ _ _ g' ka' gs' kb' hu' hfin' hrest =>
          rw [hu] at hu'
          obtain ⟨hf, hk⟩ := Prod.mk.injEq .. ▸ hu'
          subst hf; subst hk
          rw [hfin] at hfin'
          exact absurd hfin' (by simp)
  | drop f fs k f' ka fs' kb hu hfin _ ih =>
      cases h₂ with
      | keep _ _ _ g' ka' gs' kb' hu' hfin' hrest =>
          rw [hu] at hu'
          obtain ⟨hf, hk⟩ := Prod.mk.injEq .. ▸ hu'
          subst hf; subst hk
          rw [hfin] at hfin'
          exact absurd hfin' (by simp)
      | drop _ _ _ g' ka' gs' kb' hu' hfin' hrest =>
          rw [hu] at hu'
          obtain ⟨hf, hk⟩ := Prod.mk.injEq .. ▸ hu'
          subst hf; subst hk
          exact ih hrest

theorem clicksRel_total (cs : List Vec2) (fs : List Firework) :
    ClicksRel cs fs (handleClicks cs fs) := by
  induction cs generalizing fs with
  | nil => exact ClicksRel.nil fs
  | cons c cs ih =>
      exact ClicksRel.cons c cs fs _ (by simpa [handleClicks] using ih (fs ++ [Firework.launch c]))

theorem updRel_total (env : Env) (dt : ℚ) (fs : List Firework) (k : ℕ) :
    UpdRel env dt fs k (updateFireworks env dt fs k).1 (updateFireworks env dt fs k).2 := by
  induction fs generalizing k with
  | nil => exact UpdRel.nil k
  | cons f fs ih =>
      by_cases hfin : (Firework.update env dt f k).1.isFinished = true
      · have := UpdRel.drop f fs k
          (Firework.update env dt f k).1 (Firework.update env dt f k).2
          (updateFireworks env dt fs (Firework.update env dt f k).2).1
          (updateFireworks env dt fs (Firework.update env dt f k).2).2
          rfl hfin (ih _)
        simpa [updateFireworks, hfin] using this
      · have hfin' : (Firework.update env dt f k).1.isFinished = false := by
          simpa using hfin
        have := UpdRel.keep f fs k
          (Firework.update env dt f k).1 (Firework.update env dt f k).2
          (updateFireworks env dt fs (Firework.update env dt f k).2).1
          (updateFireworks env dt fs (Firework.update env dt f k).2).2
          rfl hfin' (ih _)
        simpa [updateFireworks, hfin'] using this

end Fireworks

theorem getLast_append_single {α : Type} (l : List α) (a : α) :
    (l ++ [a]).getLast? = some a := by
  induction l with
  | nil => rfl
  | cons x xs ih =>
      rw [List.cons_append, List.getLast?_cons, ih]
      rfl

namespace Shooter

theorem present_not_mem_eventTrace (e : SEvent) :
    Action.present ∉ eventTrace e := by
  cases e <;> simp [eventTrace]

theorem present_not_mem_handleEventsTrace (evs : List SEvent) (d0 : Bool) :
    Action.present ∉ handleEventsTrace evs d0 := by
  unfold handleEventsTrace
  intro h
  rcases List.mem_append.mp h with h' | h'
  · rcases List.mem_append.mp h' with h'' | h''
    · obtain ⟨piece, hpiece, hmem⟩ := List.mem_flatten.mp h''
      obtain ⟨e, _, hpe⟩ := List.mem_map.mp hpiece
      rw [← hpe] at hmem
      exact present_not_mem_eventTrace e hmem
    · simp at h''
  · split at h' <;> simp at h'

theorem present_not_mem_updateTrace (keyA jumpTaken : Bool) (nB nP : ℕ) :
    Action.present ∉ updateTrace keyA jumpTaken nB nP := by
  unfold updateTrace
  intro h
  simp only [List.mem_append, List.mem_cons, List.mem_replicate, List.not_mem_nil] at h
  rcases h with ((((((h | h) | h) | h) | h) | h) | h) <;>
    first
      | (split at h <;> simp_all)
      | simp_all

theorem mem_spawnStep {center : Vec2} {vs : List Vec2} {off : ℚ × ℚ} {p : Vec2}
    (h : p ∈ spawnStep center vs off) :
    p ∈ vs ∨ ∃ i j : ℤ, p = ((i : ℚ) * VOXEL_SIZE, (j : ℚ) * VOXEL_SIZE) := by
  unfold spawnStep at h
  split at h
  · by_cases hmem : (snapCoord center.1 off.1, snapCoord center.2 off.2) ∈ vs
    · rw [if_pos hmem] at h
      exact Or.inl h
    · rw [if_neg hmem] at h
      rcases List.mem_append.mp h with h' | h'
      · exact Or.inl h'
      · right
        refine ⟨cRound ((center.1 + off.1) / VOXEL_SIZE),
                cRound ((center.2 + off.2) / VOXEL_SIZE), ?_⟩
        have := List.mem_singleton.mp h'
        rw [this]
        unfold snapCoord
        rfl
  · exact Or.inl h

theorem nodup_spawnStep {center : Vec2} {vs : List Vec2} {off : ℚ × ℚ}
    (h : vs.Nodup) : (spawnStep center vs off).Nodup := by
  unfold spawnStep
  split
  · by_cases hmem : (snapCoord center.1 off.1, snapCoord center.2 off.2) ∈ vs
    · rw [if_pos hmem]; exact h
    · rw [if_neg hmem]
      rw [List.nodup_append]
      exact ⟨h, List.nodup_singleton _, by
        intro a ha hb
        rw [List.mem_singleton.mp hb] at ha
        exact hmem ha⟩
  · exact h

theorem mem_foldl_spawnStep (center : Vec2) :
    ∀ (offs : List (ℚ × ℚ)) (vs : List Vec2) (p : Vec2),
      p ∈ offs.foldl (spawnStep center) vs →
      p ∈ vs ∨ ∃ i j : ℤ, p = ((i : ℚ) * VOXEL_SIZE, (j : ℚ) * VOXEL_SIZE) := by
  intro offs
  induction offs with
  | nil => intro vs p h; exact Or.inl h
  | cons o os ih =>
      intro vs p h
      rcases ih _ p h with h' | h'
      · exact mem_spawnStep h'
      · exact Or.inr h'

theorem nodup_foldl_spawnStep (center : Vec2) :
    ∀ (offs : List (ℚ × ℚ)) (vs : List Vec2),
      vs.Nodup → (offs.foldl (spawnStep center) vs).Nodup := by
  intro offs
  induction offs with
  | nil => intro vs h; exact h
  | cons o os ih => intro vs h; exact ih _ (nodup_spawnStep h)

theorem gameUpdate_player (env : Env) (s : GameState) (i : GameInput) :
    (gameUpdate env s i).player = playerPhase s.voxels s.player i := by
  simp [gameUpdate]

end Shooter

theorem integrateN_rest_closed_form (g dt x0 y0 : ℚ) : ∀ n : ℕ,
    Rope.integrateN (0, g) 1 dt n ⟨(x0, y0), (x0, y0), false⟩ =
      ⟨(x0, y0 + g * dt ^ 2 * n * (n + 1) / 2),
       (x0, y0 + g * dt ^ 2 * (n - 1) * n / 2), false⟩ := by
  intro n
  induction n with
  | zero =>
      simp [Rope.integrateN]
  | succ n ih =>
      rw [Rope.integrateN, ih]
      simp only [Rope.integratePoint, if_neg (by simp : ¬false = true),
        Rope.Point.mk.injEq, Prod.mk.injEq]
      push_cast
      refine ⟨⟨by ring_nf, by ring_nf⟩, ⟨by ring_nf, by ring_nf⟩, trivial⟩

/-! # Claim theorems -/

/-- C1 (counterexample): the per-frame update does receive a
wall-clock-derived `dt`.  Two runs of the fireworks `main` loop from the
same initial state, with the same click events and the same `rand()`
stream, but with different wall-clock gaps between frames (1/60 s versus
1/30 s before frame 0), are in different states after one frame: the
frame update is driven by `clock.restart().asSeconds()`. -/
theorem run_depends_on_wallclock_counterexample :
    Fireworks.run constEnv (fun _ => 1/60) (fun n => if n = 0 then [(400, 600)] else []) 1 ≠
    Fireworks.run constEnv (fun _ => 1/30) (fun n => if n = 0 then [(400, 600)] else []) 1 := by
  simp only [Fireworks.run, Fireworks.frame, Fireworks.handleClicks, Fireworks.updateFireworks,
    Fireworks.Firework.update, Fireworks.Firework.launch, Fireworks.Particle.update,
    Fireworks.Firework.isFinished, Fireworks.autoLaunch, Fireworks.Firework.explode, constEnv]
  norm_num

/-- C1 (amended): the simulation step of each frame is advanced with
`dt` equal to the real wall-clock time elapsed since the previous frame
(`clock.restart().asSeconds()`), not a fixed time step: frames driven by
different wall-clock gaps produce different post-frame states.  For a
world holding one mid-flight rocket, any two distinct `dt` values below
the explosion threshold yield different worlds. -/
theorem frame_dt_wallclock_sensitive : ∀ dt₁ dt₂ : ℚ, dt₁ < 3 → dt₂ < 3 → dt₁ ≠ dt₂ →
    Fireworks.frame constEnv oneRocketWorld ⟨dt₁, []⟩ ≠
    Fireworks.frame constEnv oneRocketWorld ⟨dt₂, []⟩ := by
  intro dt₁ dt₂ h1 h2 hne
  have g1 : ¬((-300:ℚ) + 98.1 * dt₁ ≥ 0) := by norm_num; linarith
  have g2 : ¬((-300:ℚ) + 98.1 * dt₂ ≥ 0) := by norm_num; linarith
  simp only [Fireworks.frame, Fireworks.handleClicks, Fireworks.updateFireworks,
    Fireworks.Firework.update, Fireworks.Firework.launch, Fireworks.Particle.update,
    Fireworks.Firework.isFinished, Fireworks.autoLaunch, Fireworks.Firework.explode,
    constEnv, oneRocketWorld, List.foldl, if_neg g1, if_neg g2]
  norm_num [Fireworks.World.mk.injEq, Fireworks.Firework.mk.injEq,
    Fireworks.Particle.mk.injEq]
  intro h
  exact hne (by linarith)

/-- C1 (witness): the sensitivity theorem at the concrete pair
`dt = 1/60` versus `dt = 1/30`. -/
theorem frame_dt_wallclock_sensitive_witness :
    Fireworks.frame constEnv oneRocketWorld ⟨1/60, []⟩ ≠
    Fireworks.frame constEnv oneRocketWorld ⟨1/30, []⟩ :=
  frame_dt_wallclock_sensitive (1/60) (1/30) (by norm_num) (by norm_num) (by norm_num)

/-- C2: one frame of the fireworks computation, viewed as the step
relation `FrameRel` over the pre-frame world (fireworks list and
`rand()` cursor) and the frame's inputs (`dt` and clicks), is
deterministic — two runs from identical pre-frame state and identical
inputs reach the same post-frame state — and total, with the function
`Fireworks.frame` as its unique result. -/
theorem fireworks_frame_deterministic_and_total :
    (∀ (env : Env) (w : Fireworks.World) (i : Fireworks.FrameInput)
       (w₁ w₂ : Fireworks.World),
       Fireworks.FrameRel env w i w₁ → Fireworks.FrameRel env w i w₂ → w₁ = w₂) ∧
    (∀ (env : Env) (w : Fireworks.World) (i : Fireworks.FrameInput),
       Fireworks.FrameRel env w i (Fireworks.frame env w i)) := by
  constructor
  · rintro env w i w₁ w₂ ⟨a1, b1, c1, h1, h2, h3⟩ ⟨a2, b2, c2, g1, g2, g3⟩
    have ha : a1 = a2 := Fireworks.clicksRel_deterministic h1 g1
    subst ha
    obtain ⟨hb, hc⟩ := Fireworks.updRel_deterministic h2 g2
    subst hb
    subst hc
    rw [h3, g3]
  · intro env w i
    exact ⟨_, _, _, Fireworks.clicksRel_total _ _, Fireworks.updRel_total _ _ _ _, rfl⟩

/-- C2 (witness): determinism applied at a concrete world and input,
with both `FrameRel` hypotheses discharged by the totality part. -/
theorem fireworks_frame_deterministic_witness :
    Fireworks.frame constEnv ⟨[], 0⟩ ⟨1, []⟩ = Fireworks.frame constEnv ⟨[], 0⟩ ⟨1, []⟩ :=
  fireworks_frame_deterministic_and_total.1 constEnv ⟨[], 0⟩ ⟨1, []⟩ _ _
    (fireworks_frame_deterministic_and_total.2 constEnv ⟨[], 0⟩ ⟨1, []⟩)
    (fireworks_frame_deterministic_and_total.2 constEnv ⟨[], 0⟩ ⟨1, []⟩)

/-- C3 (counterexample): not every place a direction is computed skips
the degenerate zero-length case.  The bullet-direction computation of
`Game::handleEvents` divides by the length unconditionally: when the
mouse position coincides with the player center, it divides by zero
(`none` marks the division-by-zero). -/
theorem bulletDirection_divides_by_zero_counterexample :
    Shooter.bulletDirectionChecked (115, 515) (115, 515) = none := by
  unfold Shooter.bulletDirectionChecked
  norm_num [sqrtQ_zero, qdiv]

/-- C3 (amended): the `normalize` helper is guarded — it never divides
by zero, and returns the zero-length vector unchanged (skip) — but the
bullet-direction computation in `Game::handleEvents` is unguarded: it
avoids division by zero exactly when the mouse position differs from the
player center. -/
theorem normalize_guarded_bulletDirection_unguarded :
    (∀ v : Vec2, (Shooter.normalizeChecked v).isSome = true) ∧
    (∀ v : Vec2, Shooter.vectorLength v = 0 → Shooter.normalizeChecked v = some v) ∧
    (∀ m c : Vec2, (Shooter.bulletDirectionChecked m c).isSome = true ↔ m ≠ c) := by
  refine ⟨?_, ?_, ?_⟩
  · intro v
    unfold Shooter.normalizeChecked
    by_cases h : Shooter.vectorLength v > 0
    · have hne : Shooter.vectorLength v ≠ 0 := ne_of_gt h
      simp [h, qdiv, hne]
    · simp [h]
  · intro v hv
    unfold Shooter.normalizeChecked
    rw [hv]
    norm_num
  · intro m c
    unfold Shooter.bulletDirectionChecked
    dsimp only
    set d1 := m.1 - c.1 with hd1
    set d2 := m.2 - c.2 with hd2
    have hsq : 0 ≤ d1 * d1 + d2 * d2 := add_nonneg (mul_self_nonneg _) (mul_self_nonneg _)
    by_cases hz : d1 * d1 + d2 * d2 = 0
    · have hzz : sqrtQ (d1 * d1 + d2 * d2) = 0 := by rw [hz]; exact sqrtQ_zero
      rw [hzz]
      simp only [qdiv]
      norm_num
      have hd1z : d1 = 0 := by nlinarith [mul_self_nonneg d1, mul_self_nonneg d2]
      have hd2z : d2 = 0 := by nlinarith [mul_self_nonneg d1, mul_self_nonneg d2]
      have hx : m.1 = c.1 := by linarith [hd1 ▸ hd1z]
      have hy : m.2 = c.2 := by linarith [hd2 ▸ hd2z]
      exact Prod.ext hx hy
    · have hpos : 0 < d1 * d1 + d2 * d2 := lt_of_le_of_ne hsq (Ne.symm hz)
      have hs : sqrtQ (d1 * d1 + d2 * d2) ≠ 0 := ne_of_gt (sqrtQ_pos hpos)
      simp only [qdiv, if_neg hs, Option.bind_eq_bind, Option.some_bind, Option.pure_def,
        Option.isSome_some, true_iff]
      intro hmc
      apply hz
      rw [hd1, hd2, hmc]
      ring

/-- C3 (witness): the guarded `normalize` at the zero vector skips the
correction and performs no division. -/
theorem normalize_guarded_witness :
    Shooter.normalizeChecked (0, 0) = some (0, 0) :=
  normalize_guarded_bulletDirection_unguarded.2.1 (0, 0)
    ((Shooter.vectorLength_eq_zero_iff (0, 0)).mpr rfl)

/-- C4 (counterexample): the fireworks `Particle` stores an explicit
velocity that is independent state, so velocity is not derived from a
position delta: two particles with identical positions (and no previous
position exists in the data model) but different stored velocities move
to different positions in one update. -/
theorem stored_velocity_counterexample :
    (⟨(0, 0), (0, 0), 255, 255, 255, 2⟩ : Fireworks.Particle).pos =
      (⟨(0, 0), (100, 0), 255, 255, 255, 2⟩ : Fireworks.Particle).pos ∧
    (Fireworks.Particle.update 1 ⟨(0, 0), (0, 0), 255, 255, 255, 2⟩).pos ≠
      (Fireworks.Particle.update 1 ⟨(0, 0), (100, 0), 255, 255, 255, 2⟩).pos := by
  constructor
  · rfl
  · norm_num [Fireworks.Particle.update, Prod.ext_iff]

/-- C4 (amended): both demos integrate with an explicitly stored
per-entity velocity in the Euler style — position advances by
`velocity * dt` and the stored velocity then receives the gravity
increment — not position-Verlet: the stored velocity is independent
state that determines the next position, both for the fireworks
`Particle` and for the shooter player integration in `Game::update`. -/
theorem demos_use_explicit_velocity_euler :
    (∀ (dt : ℚ) (p : Fireworks.Particle),
       (Fireworks.Particle.update dt p).pos =
         (p.pos.1 + p.vel.1 * dt, p.pos.2 + p.vel.2 * dt) ∧
       (Fireworks.Particle.update dt p).vel = (p.vel.1, p.vel.2 + 98.1 * dt)) ∧
    (∀ (dt : ℚ) (p₁ p₂ : Fireworks.Particle), dt ≠ 0 → p₁.pos = p₂.pos →
       p₁.vel ≠ p₂.vel →
       (Fireworks.Particle.update dt p₁).pos ≠ (Fireworks.Particle.update dt p₂).pos) ∧
    (∀ (dt y v₁ v₂ : ℚ), dt ≠ 0 → v₁ ≠ v₂ →
       (Shooter.playerPhasePostCollision [] ⟨(0, y), (0, v₁), false⟩
          ⟨false, false, false, dt⟩).1.2 ≠
       (Shooter.playerPhasePostCollision [] ⟨(0, y), (0, v₂), false⟩
          ⟨false, false, false, dt⟩).1.2) := by
  refine ⟨?_, ?_, ?_⟩
  · intro dt p
    exact ⟨rfl, rfl⟩
  · intro dt p₁ p₂ hdt hpos hvel
    simp only [Fireworks.Particle.update, hpos, ne_eq, Prod.mk.injEq, not_and]
    intro hx hy
    apply hvel
    have h1 : p₁.vel.1 = p₂.vel.1 := by
      have := mul_right_cancel₀ hdt (by linarith : p₁.vel.1 * dt = p₂.vel.1 * dt)
      exact this
    have h2 : p₁.vel.2 = p₂.vel.2 := by
      have := mul_right_cancel₀ hdt (by linarith : p₁.vel.2 * dt = p₂.vel.2 * dt)
      exact this
    exact Prod.ext h1 h2
  · intro dt y v₁ v₂ hdt hv
    simp only [Shooter.playerPhasePostCollision, Shooter.handleCollisions,
      Shooter.checkVoxelCollision, List.any_nil, Bool.false_eq_true, if_false,
      Bool.and_eq_true, Bool.not_eq_true]
    norm_num [Shooter.GRAVITY]
    exact ⟨hv, hdt⟩

/-- C4 (witness): the velocity-sensitivity part at `dt = 1` and two
concrete particles sharing a position. -/
theorem demos_use_explicit_velocity_euler_witness :
    (Fireworks.Particle.update 1 ⟨(0, 0), (0, 0), 255, 255, 255, 2⟩).pos ≠
    (Fireworks.Particle.update 1 ⟨(0, 0), (100, 0), 255, 255, 255, 2⟩).pos :=
  demos_use_explicit_velocity_euler.2.1 1 _ _ (by norm_num) rfl
    (by norm_num [Prod.ext_iff])

/-- C5 (counterexample): not all of a frame's input is observed before
the state update.  Even in a completely quiet frame (no events, no
drawing, no keys, no bullets or particles), `Game::update` polls the
Space key after it has already written the player's horizontal velocity,
so an input observation follows a state update within the frame. -/
theorem input_observed_after_update_counterexample :
    Shooter.inputsBeforeUpdates
      (Shooter.frameTrace [] false false false 0 0) = false := by
  decide

/-- C5 (amended): each frame runs `handleEvents`, then `update`, then
`render` in that order, and the frame's entire computation completes
before presentation — the presentation action is the unique last action
of every frame trace.  (Input observation and state update however
interleave: `Game::update` itself polls the keyboard, and
`Game::handleEvents` itself mutates state.) -/
theorem frame_presents_last :
    ∀ (evs : List Shooter.SEvent) (d0 keyA jumpTaken : Bool) (nB nP : ℕ),
      (Shooter.frameTrace evs d0 keyA jumpTaken nB nP).getLast? =
        some Shooter.Action.present ∧
      Shooter.Action.present ∉
        (Shooter.frameTrace evs d0 keyA jumpTaken nB nP).dropLast := by
  intro evs d0 keyA jumpTaken nB nP
  have hshape : Shooter.frameTrace evs d0 keyA jumpTaken nB nP =
      (Shooter.Action.obsClock :: (Shooter.handleEventsTrace evs d0 ++
        Shooter.updateTrace keyA jumpTaken nB nP)) ++ [Shooter.Action.present] := by
    unfold Shooter.frameTrace
    simp
  rw [hshape]
  constructor
  · exact getLast_append_single _ _
  · rw [List.dropLast_concat]
    intro h
    rcases List.mem_cons.mp h with h' | h'
    · exact absurd h' (by simp)
    · rcases List.mem_append.mp h' with h'' | h''
      · exact Shooter.present_not_mem_handleEventsTrace evs d0 h''
      · exact Shooter.present_not_mem_updateTrace keyA jumpTaken nB nP h''

/-- C6 (counterexample): the §4.1 Verlet rule from rest does not give
the claimed displacement `0.5 * g * (n*dt)^2`.  With `g = 1`, `dt = 1`,
after `n = 1` step from rest the vertical displacement is `1` (exact
rational arithmetic, so no floating-point tolerance is involved), while
the claimed closed form gives `1/2`. -/
theorem verlet_displacement_counterexample :
    (Rope.integrateN (0, 1) 1 1 1 ⟨(0, 0), (0, 0), false⟩).position.2 = 1 ∧
    (1 : ℚ) ≠ 1/2 * 1 * ((1 * 1 : ℚ)) ^ 2 := by
  constructor
  · norm_num [Rope.integrateN, Rope.integratePoint]
  · norm_num

/-- C6 (amended, spec-modelled): for a single unconstrained, unlocked
Point starting at rest under constant gravity `g` with `damping = 1`,
after `n` steps of fixed `dt` of the §4.1 rule the vertical displacement
is exactly `g * dt^2 * n * (n+1) / 2`, i.e. `0.5*g*(n*dt)^2` plus the
half-step term `0.5*g*n*dt^2` — not the claimed `0.5*g*(n*dt)^2`. -/
theorem verlet_displacement_closed_form (g dt x0 y0 : ℚ) (n : ℕ) :
    (Rope.integrateN (0, g) 1 dt n ⟨(x0, y0), (x0, y0), false⟩).position.2 =
      y0 + g * dt ^ 2 * n * (n + 1) / 2 := by
  rw [integrateN_rest_closed_form]

/-- C7 (spec-modelled): relaxing a Constraint whose two Points coincide
changes neither Point and performs no division by zero: the
`currentLength = 0` guard of §4.2 skips the correction, so no NaN can
propagate from constraint relaxation for coincident constrained
points. -/
theorem relax_coincident_skips (L : ℚ) (A B : Rope.Point)
    (h : A.position = B.position) :
    Rope.relaxConstraint L A B = (A, B) ∧
    Rope.relaxConstraintChecked L A B = some (A, B) := by
  unfold Rope.relaxConstraint Rope.relaxConstraintChecked
  simp only [← h, sub_self]
  norm_num [sqrtQ_zero]

/-- C7 (witness): coincident points at `(5, 7)`, one locked, rest
length 3. -/
theorem relax_coincident_skips_witness :
    Rope.relaxConstraint 3 ⟨(5, 7), (5, 7), false⟩ ⟨(5, 7), (1, 1), true⟩ =
      (⟨(5, 7), (5, 7), false⟩, ⟨(5, 7), (1, 1), true⟩) ∧
    Rope.relaxConstraintChecked 3 ⟨(5, 7), (5, 7), false⟩ ⟨(5, 7), (1, 1), true⟩ =
      some (⟨(5, 7), (5, 7), false⟩, ⟨(5, 7), (1, 1), true⟩) :=
  relax_coincident_skips 3 _ _ rfl

/-- C8: after every call of `Game::update` the player's x position lies
in `[0, WINDOW_WIDTH − 30]` and its y position is at most
`WINDOW_HEIGHT − 30`; whenever the bottom clamp fires (the
post-collision y exceeds the bound) the vertical velocity becomes 0 and
`isJumping` becomes false; and no upper bound on y is enforced — for
every bound `B` there is a state and input whose update leaves the
player's y below `B`. -/
theorem player_bounds_after_update :
    (∀ (env : Env) (s : Shooter.GameState) (i : Shooter.GameInput),
       0 ≤ (Shooter.gameUpdate env s i).player.pos.1 ∧
       (Shooter.gameUpdate env s i).player.pos.1 ≤ Shooter.WINDOW_WIDTH - 30 ∧
       (Shooter.gameUpdate env s i).player.pos.2 ≤ Shooter.WINDOW_HEIGHT - 30) ∧
    (∀ (env : Env) (s : Shooter.GameState) (i : Shooter.GameInput),
       (Shooter.playerPhasePostCollision s.voxels s.player i).1.2 >
           Shooter.WINDOW_HEIGHT - 30 →
       (Shooter.gameUpdate env s i).player.vel.2 = 0 ∧
       (Shooter.gameUpdate env s i).player.isJumping = false) ∧
    (∀ B : ℚ, ∃ (s : Shooter.GameState) (i : Shooter.GameInput),
       ∀ env : Env, (Shooter.gameUpdate env s i).player.pos.2 < B) := by
  refine ⟨?_, ?_, ?_⟩
  · intro env s i
    rw [Shooter.gameUpdate_player]
    refine ⟨?_, ?_, ?_⟩ <;>
      · unfold Shooter.playerPhase
        dsimp only
        norm_num [Shooter.WINDOW_WIDTH, Shooter.WINDOW_HEIGHT]
        split_ifs <;> first | linarith | norm_num
  · intro env s i h
    rw [Shooter.gameUpdate_player]
    unfold Shooter.playerPhase
    dsimp only
    rw [if_pos h]
    exact ⟨rfl, rfl⟩
  · intro B
    refine ⟨⟨⟨(100, min (B - 1) 0), (0, 0), false⟩, [], [], [], false, 0, (0, 0), 0⟩,
      ⟨false, false, false, 0⟩, ?_⟩
    intro env
    rw [Shooter.gameUpdate_player]
    have hmin : min (B - 1) 0 ≤ 0 := min_le_right _ _
    have hB : min (B - 1) 0 < B := lt_of_le_of_lt (min_le_left _ _) (by linarith)
    unfold Shooter.playerPhase Shooter.playerPhasePostCollision Shooter.handleCollisions
    norm_num [Shooter.checkVoxelCollision, Shooter.WINDOW_HEIGHT, Shooter.GRAVITY,
      Shooter.JUMP_VELOCITY, Shooter.PLAYER_SPEED]

/-- C8 (witness): the bottom clamp fires for a player at height 1000
with a quiet input, zeroing the vertical velocity and clearing the jump
flag. -/
theorem player_bounds_after_update_witness :
    (Shooter.gameUpdate constEnv clampState quietInput).player.vel.2 = 0 ∧
    (Shooter.gameUpdate constEnv clampState quietInput).player.isJumping = false :=
  player_bounds_after_update.2.1 constEnv clampState quietInput (by
    norm_num [clampState, quietInput, Shooter.playerPhasePostCollision,
      Shooter.handleCollisions, Shooter.checkVoxelCollision,
      Shooter.WINDOW_HEIGHT, Shooter.GRAVITY, Shooter.JUMP_VELOCITY,
      Shooter.PLAYER_SPEED])

/-- C9: every voxel added by `Game::spawnVoxelsInRadius` is
grid-snapped — both coordinates are integer multiples of `VOXEL_SIZE` —
and a voxel is never added at an already-occupied position, so
pairwise-distinct voxel positions are preserved by each call, and any
sequence of spawn calls starting from the empty collection keeps all
positions pairwise distinct. -/
theorem spawnVoxels_snapped_and_distinct :
    (∀ (center : Vec2) (vs : List Vec2) (p : Vec2),
       p ∈ Shooter.spawnVoxelsInRadius center vs →
       p ∈ vs ∨ ∃ i j : ℤ,
         p = ((i : ℚ) * Shooter.VOXEL_SIZE, (j : ℚ) * Shooter.VOXEL_SIZE)) ∧
    (∀ (center : Vec2) (vs : List Vec2),
       vs.Nodup → (Shooter.spawnVoxelsInRadius center vs).Nodup) ∧
    (∀ centers : List Vec2,
       (centers.foldl (fun vs c => Shooter.spawnVoxelsInRadius c vs) []).Nodup) := by
  refine ⟨?_, ?_, ?_⟩
  · intro center vs p h
    exact Shooter.mem_foldl_spawnStep center _ vs p h
  · intro center vs h
    exact Shooter.nodup_foldl_spawnStep center _ vs h
  · intro centers
    have key : ∀ (vs : List Vec2), vs.Nodup →
        (centers.foldl (fun vs c => Shooter.spawnVoxelsInRadius c vs) vs).Nodup := by
      induction centers with
      | nil => intro vs h; exact h
      | cons c cs ih =>
          intro vs h
          exact ih _ (Shooter.nodup_foldl_spawnStep c _ vs h)
    exact key [] List.nodup_nil

/-- C9 (witness): one spawn call from the empty voxel collection leaves
the positions pairwise distinct. -/
theorem spawnVoxels_snapped_and_distinct_witness :
    (Shooter.spawnVoxelsInRadius (0, 0) []).Nodup :=
  spawnVoxels_snapped_and_distinct.2.1 (0, 0) [] List.nodup_nil

/-- C10: an unexploded `Firework` carrying its single rocket explodes on
an update exactly when the rocket's updated vertical velocity is
non-negative (and the `exploded` flag is irreversible, so this is the
first such update); at that point the rocket is removed and exactly 100
explosion particles are created at the rocket's final position; and
after the update-and-prune pass of `main`, no firework remaining in the
collection is finished. -/
theorem firework_explodes_at_apex_and_prune :
    (∀ (env : Env) (dt : ℚ) (r : Fireworks.Particle) (ep : Vec2) (k : ℕ),
       (((Fireworks.Firework.update env dt ⟨[r], false, ep⟩ k).1.exploded = true) ↔
          (Fireworks.Particle.update dt r).vel.2 ≥ 0) ∧
       ((Fireworks.Particle.update dt r).vel.2 ≥ 0 →
          (Fireworks.Firework.update env dt ⟨[r], false, ep⟩ k).1.particles.length = 100 ∧
          (∀ p ∈ (Fireworks.Firework.update env dt ⟨[r], false, ep⟩ k).1.particles,
             p.pos = (Fireworks.Particle.update dt r).pos) ∧
          (Fireworks.Firework.update env dt ⟨[r], false, ep⟩ k).1.explosionPosition =
            (Fireworks.Particle.update dt r).pos ∧
          (Fireworks.Firework.update env dt ⟨[r], false, ep⟩ k).2 = k + 500) ∧
       (¬((Fireworks.Particle.update dt r).vel.2 ≥ 0) →
          (Fireworks.Firework.update env dt ⟨[r], false, ep⟩ k).1 =
            ⟨[Fireworks.Particle.update dt r], false, ep⟩)) ∧
    (∀ (env : Env) (dt : ℚ) (f : Fireworks.Firework) (k : ℕ),
       f.exploded = true → (Fireworks.Firework.update env dt f k).1.exploded = true) ∧
    (∀ (env : Env) (dt : ℚ) (fs : List Fireworks.Firework) (k : ℕ),
       ∀ f' ∈ (Fireworks.updateFireworks env dt fs k).1, f'.isFinished = false) := by
  refine ⟨?_, ?_, ?_⟩
  · intro env dt r ep k
    by_cases hc : (Fireworks.Particle.update dt r).vel.2 ≥ 0
    · refine ⟨?_, ?_, ?_⟩
      · simp [Fireworks.Firework.update, Fireworks.Firework.explode, hc]
      · intro _
        refine ⟨?_, ?_, ?_, ?_⟩
        · simp [Fireworks.Firework.update, Fireworks.Firework.explode, hc]
        · intro p hp
          simp [Fireworks.Firework.update, Fireworks.Firework.explode, hc] at hp
          obtain ⟨i, _, hpi⟩ := hp
          rw [← hpi]
          simp [Fireworks.explosionParticle]
        · simp [Fireworks.Firework.update, Fireworks.Firework.explode, hc]
        · simp [Fireworks.Firework.update, Fireworks.Firework.explode, hc]
      · intro h; exact absurd hc h
    · refine ⟨?_, ?_, ?_⟩
      · simp [Fireworks.Firework.update, hc]
      · intro h; exact absurd h hc
      · intro _
        simp [Fireworks.Firework.update, hc]
  · intro env dt f k h
    simp [Fireworks.Firework.update, h]
  · intro env dt fs
    induction fs with
    | nil => intro k f' h; simp [Fireworks.updateFireworks] at h
    | cons f fs ih =>
        intro k f' h
        rw [Fireworks.updateFireworks] at h
        by_cases hfin : (Fireworks.Firework.update env dt f k).1.isFinished = true
        · rw [if_pos hfin] at h
          exact ih _ f' h
        · rw [if_neg hfin] at h
          rcases List.mem_cons.mp h with h' | h'
          · rw [h']
            simpa using hfin
          · exact ih _ f' h'

/-- C10 (witness): a mid-flight rocket updated with `dt = 4` reaches
non-negative vertical velocity (`-300 + 98.1*4 ≥ 0`) and its firework
explodes into exactly 100 particles. -/
theorem firework_explodes_at_apex_witness :
    (Fireworks.Firework.update constEnv 4 ⟨[midFlightRocket], false, (10, 20)⟩
        0).1.particles.length = 100 :=
  ((firework_explodes_at_apex_and_prune.1 constEnv 4 midFlightRocket (10, 20) 0).2.1
    (by norm_num [Fireworks.Particle.update, midFlightRocket])).1
